import Mathlib

set_option maxRecDepth 8192

/-
Shallow embedding of the steam-tracker repository core.

Go strings are modelled as lists of byte values (List Nat) where byte-level
reasoning is needed (decimal formatting and parsing), and as Lean String
where only equality is needed (persona state names).  Machine integers
(Go int, int64) are modelled as Int; timestamps as a Nat logical clock.
Fallible Go calls returning (value, error) are modelled with GoResult.
-/

/-- Result of a Go call returning (value, error): exactly one of the two. -/
inductive GoResult (ε α : Type) where
  | err (e : ε)
  | ok (a : α)
deriving DecidableEq, Repr

/-- A byte is a decimal digit character (ASCII 48..57). -/
def isDigitByte (c : Nat) : Bool := 48 ≤ c && c ≤ 57

/-- Accumulate the numeric value of a run of decimal digit bytes,
as strconv does digit by digit. -/
def decValue (cs : List Nat) : Nat :=
  cs.foldl (fun a c => a * 10 + (c - 48)) 0

/-- Decimal digits of n, most significant first, as bytes; fuel-based
structural recursion (fuel n suffices since n/10 < n for n > 0).
Embeds the digit loop of fmt %d formatting. -/
def natDigitsCore : Nat → Nat → List Nat
  | 0, _ => []
  | fuel + 1, n => if n = 0 then [] else natDigitsCore fuel (n / 10) ++ [48 + n % 10]

/-- Decimal byte string of a Nat (fmt %d on a non-negative value). -/
def natDecBytes (n : Nat) : List Nat :=
  if n = 0 then [48] else natDigitsCore n n

/-- fmt.Sprintf %d on an int64: optional ASCII minus (45) then digits.
This is SteamID.String / the ID rendering in AuditLog.MarshalJSON. -/
def int64DecBytes (i : Int) : List Nat :=
  if i < 0 then 45 :: natDecBytes i.natAbs else natDecBytes i.toNat

/-- Parse a non-empty all-digit byte run to its value, as the digit loop of
strconv.ParseInt does; empty or non-digit input fails. -/
def parseNatDec (cs : List Nat) : Option Nat :=
  if cs.isEmpty then none
  else if cs.all isDigitByte then some (decValue cs) else none

/-- strconv.ParseInt(s, 10, 64): optional leading minus (45) or plus (43),
then decimal digits; a value outside the int64 range is a range error,
which the SteamID unmarshaller treats as failure. -/
def parseInt64Dec (cs : List Nat) : Option Int :=
  match cs with
  | 45 :: rest =>
    (parseNatDec rest).bind fun n => if n ≤ 2 ^ 63 then some (-(n : Int)) else none
  | 43 :: rest =>
    (parseNatDec rest).bind fun n => if n ≤ 2 ^ 63 - 1 then some (n : Int) else none
  | _ =>
    (parseNatDec cs).bind fun n => if n ≤ 2 ^ 63 - 1 then some (n : Int) else none

/-- Byte values of a Lean string literal (ASCII content only). -/
def strBytes (s : String) : List Nat := s.data.map Char.toNat

/-- Number of binary digits of n, fuel-based (fuel n suffices). -/
def bitLenCore : Nat → Nat → Nat
  | 0, _ => 0
  | fuel + 1, n => if n = 0 then 0 else bitLenCore fuel (n / 2) + 1

/-- Number of binary digits of n: 2 ^ (bitLen n - 1) ≤ n < 2 ^ bitLen n for n > 0. -/
def bitLen (n : Nat) : Nat := bitLenCore n n

/-- IEEE-754 binary64 rounding (round to nearest, ties to even) of a
non-negative integer: the value a Go float64 holds after a JSON number
with this integral value is decoded.  Values of at most 53 bits are exact;
above that the significand is truncated to 53 bits and rounded. -/
def roundFloat64Nat (n : Nat) : Nat :=
  if bitLen n ≤ 53 then n
  else
    let k := bitLen n - 1
    let scale := 2 ^ (k - 52)
    let q := n / scale
    let r := n % scale
    if 2 * r < scale then q * scale
    else if scale < 2 * r then (q + 1) * scale
    else if q % 2 = 0 then q * scale else (q + 1) * scale

/-- binary64 rounding of an integer (sign-magnitude, as IEEE is symmetric). -/
def roundFloat64Int (i : Int) : Int :=
  if i < 0 then -(roundFloat64Nat i.natAbs : Int) else (roundFloat64Nat i.natAbs : Int)

/-- SteamID.UnmarshalJSON on a JSON number: encoding/json decodes the number
into a float64, then the code truncates with int64(value).  Modelled at
integral inputs within the int64 range, where the float64 holds
roundFloat64Int of the literal and the int64 conversion of that integral
double is the identity. -/
def steamIDUnmarshalNum (n : Int) : Int := roundFloat64Int n

/-- SteamID.UnmarshalJSON on a JSON string: strconv.ParseInt(value, 10, 64);
a parse failure is an "invalid SteamID format" error (none). -/
def steamIDUnmarshalStr (cs : List Nat) : Option Int := parseInt64Dec cs

/-- SteamID.String / the payload of SteamID.MarshalJSON: the decimal form
of the 64-bit id (MarshalJSON wraps these bytes in JSON quotes). -/
def steamIDMarshalBytes (i : Int) : List Nat := int64DecBytes i

/-- The personaStateNames table: canonical display name of each state in
the closed enumeration Unknown(-1) .. LookingToPlay(6); names of all other
values are absent.  PersonaState itself is a Go int, modelled as Int. -/
def personaStateName : Int → Option String := fun s =>
  if s = -1 then some "Unknown"
  else if s = 0 then some "Offline"
  else if s = 1 then some "Online"
  else if s = 2 then some "Busy"
  else if s = 3 then some "Away"
  else if s = 4 then some "Snooze"
  else if s = 5 then some "Looking to Trade"
  else if s = 6 then some "Looking to Play"
  else none

/-- PersonaState.String: the table name, defaulting to "Unknown". -/
def personaStateString (s : Int) : String := (personaStateName s).getD "Unknown"

/-- PersonaState.fromString: find the table entry whose name matches.
The Go loop iterates the map in unspecified order; the eight names are
pairwise distinct so the order is irrelevant. -/
def personaStateFromString (n : String) : Option Int :=
  if n = "Unknown" then some (-1)
  else if n = "Offline" then some 0
  else if n = "Online" then some 1
  else if n = "Busy" then some 2
  else if n = "Away" then some 3
  else if n = "Snooze" then some 4
  else if n = "Looking to Trade" then some 5
  else if n = "Looking to Play" then some 6
  else none

/-- The dynamic value encoding/json hands to the type switch in the
unmarshallers: a number (modelled at integral values, where float64 is
exact up to 2^53 and the persona-state comparisons are unaffected),
a string, or any other JSON value. -/
inductive JsonScalar where
  | num (n : Int)
  | str (s : String)
  | other
deriving DecidableEq, Repr

/-- Errors of PersonaState.UnmarshalJSON. -/
inductive PersonaStateUnmarshalErr where
  | invalidValue (n : Int)
  | unknownName (s : String)
  | invalidType
deriving DecidableEq, Repr

/-- PersonaState.UnmarshalJSON: the numeric branch rejects value < 0 and
int(value) >= len(personaStateNames), where the table has 8 entries
(the -1 sentinel included); the string branch is fromString; any other
JSON type is an error. -/
def personaStateUnmarshal (v : JsonScalar) : GoResult PersonaStateUnmarshalErr Int :=
  match v with
  | .num n => if n < 0 ∨ 8 ≤ n then .err (.invalidValue n) else .ok n
  | .str s =>
    match personaStateFromString s with
    | some st => .ok st
    | none => .err (.unknownName s)
  | .other => .err .invalidType

/-- SearchPlayersQuery: page/limit plus the optional filters and sort
direction (pointer fields modelled as Option). -/
structure SearchPlayersQuery where
  page : Int
  limit : Int
  steamID : Option Int
  startCreatedAt : Option Nat
  endCreatedAt : Option Nat
  sortByCreatedAt : Option String
deriving DecidableEq, Repr

/-- SearchPlayersQuery.Validate: mutates page and limit in place, then
checks the filters in order, returning the first error if any.  The
mutations happen before any check, so they apply even on error. -/
def SearchPlayersQuery.Validate (q0 : SearchPlayersQuery) :
    SearchPlayersQuery × Option String :=
  let q1 := if q0.page < 1 then { q0 with page := 1 } else q0
  let q2 := if q1.limit < 1 ∨ 100 < q1.limit then { q1 with limit := 25 } else q1
  let e :=
    if (match q2.steamID with | some v => decide (v < 0) | none => false) then
      some "invalid SteamID"
    else if (match q2.startCreatedAt, q2.endCreatedAt with
             | some a, some b => decide (b < a)
             | _, _ => false) then
      some "start_created_at cannot be after end_created_at"
    else
      match q2.sortByCreatedAt with
      | some o => if o ≠ "asc" ∧ o ≠ "desc" then some "invalid sort order for created_at" else none
      | none => none
  (q2, e)

/-- SearchAuditLogsQuery: page/limit and the optional sort direction on id. -/
structure SearchAuditLogsQuery where
  page : Int
  limit : Int
  sortByID : Option String
deriving DecidableEq, Repr

/-- SearchAuditLogsQuery.Validate: same page/limit mutation as the player
query, then the sort-direction check. -/
def SearchAuditLogsQuery.Validate (q0 : SearchAuditLogsQuery) :
    SearchAuditLogsQuery × Option String :=
  let q1 := if q0.page < 1 then { q0 with page := 1 } else q0
  let q2 := if q1.limit < 1 ∨ 100 < q1.limit then { q1 with limit := 25 } else q1
  let e :=
    match q2.sortByID with
    | some o => if o ≠ "asc" ∧ o ≠ "desc" then some "invalid sort order for id" else none
    | none => none
  (q2, e)

/-- A persisted Player snapshot row (the part_004 Player struct: the fixed
subset of upstream fields that is retained, plus id and creation time). -/
structure Player where
  id : Int
  steamID : Int
  profileState : Int
  personaName : String
  avatarHash : String
  lastLogoff : Int
  personaState : Int
  createdAt : Nat
deriving DecidableEq, Repr

/-- A persisted PlayerEvent row. -/
structure PlayerEvent where
  id : Int
  steamID : Int
  personaName : String
  personaState : Int
  createdAt : Nat
deriving DecidableEq, Repr

/-- The filter part of SearchPlayers: each present optional filter
contributes one ANDed predicate (steam_id equality, created_at lower and
upper bounds); absent filters contribute nothing. -/
def playerMatches (q : SearchPlayersQuery) (p : Player) : Bool :=
  (match q.steamID with | some v => decide (p.steamID = v) | none => true) &&
  (match q.startCreatedAt with | some v => decide (v ≤ p.createdAt) | none => true) &&
  (match q.endCreatedAt with | some v => decide (p.createdAt ≤ v) | none => true)

/-- The optional ORDER BY created_at of SearchPlayers, modelled as a stable
sort; only "asc" and "desc" reach the engine (Validate rejects the rest),
any other value is modelled as no ordering. -/
def sortPlayers (q : SearchPlayersQuery) (l : List Player) : List Player :=
  match q.sortByCreatedAt with
  | none => l
  | some o =>
    if o = "asc" then List.insertionSort (fun a b => a.createdAt ≤ b.createdAt) l
    else if o = "desc" then List.insertionSort (fun a b => b.createdAt ≤ a.createdAt) l
    else l

/-- SearchPlayersQueryResult: total count, echoed pagination, page of rows. -/
structure SearchPlayersQueryResult where
  totalCount : Int
  page : Int
  perPage : Int
  players : List Player
deriving DecidableEq, Repr

/-- SteamTracker.SearchPlayers over a stored row set: build the WHERE
conditions, Count on the filtered set, then apply the optional sort and,
only when both page and limit are positive, OFFSET (page-1)*limit and
LIMIT limit; otherwise the full filtered set is fetched and the result
page/perPage stay at their zero values. -/
def searchPlayers (db : List Player) (q : SearchPlayersQuery) : SearchPlayersQueryResult :=
  let filtered := db.filter (fun p => playerMatches q p)
  let totalCount : Int := filtered.length
  let sorted := sortPlayers q filtered
  if 0 < q.page ∧ 0 < q.limit then
    { totalCount := totalCount, page := q.page, perPage := q.limit,
      players := (sorted.drop ((q.page - 1) * q.limit).toNat).take q.limit.toNat }
  else
    { totalCount := totalCount, page := 0, perPage := 0, players := sorted }

/-- The data of the single player of a successful upstream response, before
the persisted id and timestamp are assigned (GetPlayerSummariesResponse.Player). -/
structure PlayerInput where
  steamID : Int
  profileState : Int
  personaName : String
  avatarHash : String
  lastLogoff : Int
  personaState : Int
deriving DecidableEq, Repr

/-- Outcome of the retried upstream fetch as seen by one tick: transport or
decode failure after retries, a response with no players, or player data. -/
inductive PollOutcome where
  | fetchError
  | emptyPlayers
  | playerData (p : PlayerInput)
deriving DecidableEq, Repr

/-- One tick's environment: the fetch outcome and whether each of the three
store calls of the tick fails (persistence failures abort only the
remaining steps that depend on them). -/
structure TickInput where
  poll : PollOutcome
  addPlayerFails : Bool
  getLatestFails : Bool
  createEventFails : Bool
deriving DecidableEq, Repr

/-- The persistent state the task reads and writes: the two append-only
tables and a logical clock standing for time.Now (each persisted row gets
the current clock and the clock then advances, so creation times are
strictly increasing across rows). -/
structure TrackerState where
  disableTask : Bool
  players : List Player
  events : List PlayerEvent
  clock : Nat
deriving DecidableEq, Repr

/-- AddPlayer's row: the fetched fields plus a fresh id and time.Now.
The snowflake id is modelled by the clock value, which is fresh. -/
def mkSnapshot (p : PlayerInput) (id : Int) (t : Nat) : Player :=
  { id := id, steamID := p.steamID, profileState := p.profileState,
    personaName := p.personaName, avatarHash := p.avatarHash,
    lastLogoff := p.lastLogoff, personaState := p.personaState, createdAt := t }

/-- ORDER BY created_at DESC ... First: the row with the greatest creation
time, the earliest-inserted one on ties (a stable descending order). -/
def latestEvent : List PlayerEvent → Option PlayerEvent
  | [] => none
  | e :: es =>
    match latestEvent es with
    | none => some e
    | some m => if m.createdAt ≤ e.createdAt then some e else some m

/-- The rows of the events table with the given steam_id, in insertion order. -/
def eventsFor (sid : Int) (evs : List PlayerEvent) : List PlayerEvent :=
  evs.filter (fun e => decide (e.steamID = sid))

/-- SteamTracker.GetLatestPlayerEvent: the state of the most recent event
for the steam_id; when no row matches, the zero-value row prefilled with
PersonaStateUnknown (-1) is returned. -/
def getLatestPlayerEventState (evs : List PlayerEvent) (sid : Int) : Int :=
  match latestEvent (eventsFor sid evs) with
  | some e => e.personaState
  | none => -1

/-- SteamTracker.task, one tick: skip when disabled; abandon the tick on
fetch failure or an empty response; persist a snapshot (a failure there is
logged and the tick continues); load the latest event state, defaulting to
Unknown (a failure there ends the tick); create a new event only when the
state differs from the prior one. -/
def task (s : TrackerState) (i : TickInput) : TrackerState :=
  if s.disableTask then s
  else
    match i.poll with
    | .fetchError => s
    | .emptyPlayers => s
    | .playerData p =>
      let s1 :=
        if i.addPlayerFails then { s with clock := s.clock + 1 }
        else { s with players := s.players ++ [mkSnapshot p (Int.ofNat s.clock) s.clock],
                      clock := s.clock + 1 }
      if i.getLatestFails then s1
      else
        let prior := getLatestPlayerEventState s1.events p.steamID
        if prior = p.personaState then s1
        else if i.createEventFails then s1
        else
          { s1 with
            events := s1.events ++
              [{ id := Int.ofNat s1.clock, steamID := p.steamID,
                 personaName := p.personaName, personaState := p.personaState,
                 createdAt := s1.clock }],
            clock := s1.clock + 1 }

/-- The state before any tick: empty tables. -/
def initState : TrackerState :=
  { disableTask := false, players := [], events := [], clock := 0 }

/-- Sequential execution of a list of ticks from the initial state. -/
def runTicks (inputs : List TickInput) : TrackerState :=
  inputs.foldl task initState

/-- The loop body of retry: call fn with the next attempt index, return on
the first success, remember the last error otherwise; when the fuel
(remaining attempts) runs out, yield the nil result and the last error. -/
def retryCore {ε α : Type} (fn : Nat → GoResult ε α) :
    Nat → Nat → Option ε → Option α × Option ε
  | _, 0, last => (none, last)
  | i, fuel + 1, _ =>
    match fn i with
    | .ok a => (some a, none)
    | .err e => retryCore fn (i + 1) fuel (some e)

/-- The retry wrapper of GetPlayerSummaries: up to retries attempts; the
first success is returned as is; exhaustion returns the last error wrapped
in a "failed after %d retries" error carrying the attempt bound. -/
def retry {ε α : Type} (fn : Nat → GoResult ε α) (retries : Nat) :
    GoResult (Nat × Option ε) α :=
  match retryCore fn 0 retries none with
  | (some a, _) => .ok a
  | (none, last) => .err (retries, last)

/-- How many times retry invokes fn: one per failing attempt until the
first success or until the bound is reached. -/
def attemptsUsed {ε α : Type} (fn : Nat → GoResult ε α) : Nat → Nat → Nat
  | _, 0 => 0
  | i, fuel + 1 =>
    match fn i with
    | .ok _ => 1
    | .err _ => 1 + attemptsUsed fn (i + 1) fuel

/-- An AuditLog row: id, the raw captured payload (a nilable byte slice),
and the creation time already rendered in RFC3339 form (the rendering
itself is opaque byte content for the marshaller). -/
structure AuditLog where
  id : Int
  raw : Option (List Nat)
  createdAtBytes : List Nat
deriving DecidableEq, Repr

/-- AuditLog.MarshalJSON: "null" for a nil receiver; otherwise an object
with audit_id and audit_created_at, and when Raw is non-nil the interior
of Raw - Raw[:len(Raw)-1][1:] - appended after a comma.  That double slice
panics (modelled as none) when Raw has fewer than 2 bytes: with length 0
the first bound is -1, with length 1 the second slice is [1:0]. -/
def auditLogMarshal (al : Option AuditLog) : Option (List Nat) :=
  match al with
  | none => some (strBytes "null")
  | some a =>
    let buf := [123] ++ strBytes "\"audit_id\":" ++ int64DecBytes a.id ++
      strBytes ",\"audit_created_at\":\"" ++ a.createdAtBytes ++ [34]
    match a.raw with
    | none => some (buf ++ [125])
    | some r =>
      if r.length < 2 then none
      else some (buf ++ [44] ++ (r.take (r.length - 1)).drop 1 ++ [125])

/-- The query of the C1 counterexample: page below 1 and limit above 100. -/
def c1Query : SearchPlayersQuery :=
  { page := -5, limit := 500, steamID := none, startCreatedAt := none,
    endCreatedAt := none, sortByCreatedAt := none }

/-- Claim C1, counterexample: validating limit=500 does not clamp it to 100;
the out-of-range limit is replaced by the default 25. -/
theorem c1_counterexample :
    (SearchPlayersQuery.Validate c1Query).1.limit ≠ 100 ∧
    (SearchPlayersQuery.Validate c1Query).1.limit = 25 ∧
    (SearchPlayersQuery.Validate c1Query).1.page = 1 := by decide

/-- Claim C1 (amended): for every search query passed through validation
(players and audit logs alike), a page below 1 is replaced by page=1 and a
limit outside [1,100] is replaced by the default limit=25 (not clamped to
the nearer bound); after validation the query has page >= 1 and
1 <= limit <= 100. -/
theorem validate_page_limit_bounds (q : SearchPlayersQuery) (qa : SearchAuditLogsQuery) :
    ((SearchPlayersQuery.Validate q).1.page = if q.page < 1 then 1 else q.page) ∧
    ((SearchPlayersQuery.Validate q).1.limit =
      if q.limit < 1 ∨ 100 < q.limit then 25 else q.limit) ∧
    1 ≤ (SearchPlayersQuery.Validate q).1.page ∧
    1 ≤ (SearchPlayersQuery.Validate q).1.limit ∧
    (SearchPlayersQuery.Validate q).1.limit ≤ 100 ∧
    ((SearchAuditLogsQuery.Validate qa).1.page = if qa.page < 1 then 1 else qa.page) ∧
    ((SearchAuditLogsQuery.Validate qa).1.limit =
      if qa.limit < 1 ∨ 100 < qa.limit then 25 else qa.limit) ∧
    1 ≤ (SearchAuditLogsQuery.Validate qa).1.page ∧
    1 ≤ (SearchAuditLogsQuery.Validate qa).1.limit ∧
    (SearchAuditLogsQuery.Validate qa).1.limit ≤ 100 := by
  simp only [SearchPlayersQuery.Validate, SearchAuditLogsQuery.Validate]
  split_ifs <;> simp_all

/-- Claim C2, counterexample: the numeric input 7 lies outside the 0..6
enumeration yet is accepted (the range check uses the 8-entry name table),
and the sentinel string "Unknown" is accepted from input, mapping to -1. -/
theorem c2_counterexample :
    personaStateUnmarshal (.num 7) = .ok 7 ∧
    personaStateUnmarshal (.str "Unknown") = .ok (-1) := by decide

/-- Claim C2 (amended): PersonaState.UnmarshalJSON accepts exactly the
numeric inputs 0..7 (rejecting negatives and values of 8 or more, so the
out-of-enumeration value 7 is accepted), and exactly the eight table names
including the sentinel "Unknown"; every other string is rejected. -/
theorem personaState_unmarshal_characterization :
    (∀ n : Int, personaStateUnmarshal (.num n) =
      if 0 ≤ n ∧ n ≤ 7 then .ok n else .err (.invalidValue n)) ∧
    (∀ s : String, (∃ st, personaStateUnmarshal (.str s) = .ok st) ↔
      (s = "Unknown" ∨ s = "Offline" ∨ s = "Online" ∨ s = "Busy" ∨ s = "Away" ∨
       s = "Snooze" ∨ s = "Looking to Trade" ∨ s = "Looking to Play")) := by
  constructor
  · intro n
    simp only [personaStateUnmarshal]
    split_ifs <;> first | rfl | omega
  · intro s
    simp only [personaStateUnmarshal, personaStateFromString]
    split_ifs <;> simp_all

/-- Claim C4: totalCount of a players search equals the number of stored
rows satisfying the filters alone; changing page or limit leaves it
unchanged, because Count runs on the filtered set before offset and limit. -/
theorem searchPlayers_totalCount_filtered (db : List Player) (q : SearchPlayersQuery)
    (p l : Int) :
    (searchPlayers db q).totalCount = ((db.filter (fun x => playerMatches q x)).length : Int) ∧
    (searchPlayers db { q with page := p, limit := l }).totalCount =
      (searchPlayers db q).totalCount := by
  constructor
  · simp only [searchPlayers]
    split <;> rfl
  · simp only [searchPlayers]
    split <;> split <;> rfl

/-- Player data with presence state Online as fetched upstream. -/
def pOnline : PlayerInput :=
  { steamID := 76561198000000000, profileState := 1, personaName := "X",
    avatarHash := "", lastLogoff := 0, personaState := 1 }

/-- Player data with presence state Away as fetched upstream. -/
def pAway : PlayerInput :=
  { steamID := 76561198000000000, profileState := 1, personaName := "X",
    avatarHash := "", lastLogoff := 0, personaState := 3 }

/-- A tick whose fetch succeeds with the given player and whose store calls
all succeed. -/
def okTick (p : PlayerInput) : TickInput :=
  { poll := .playerData p, addPlayerFails := false, getLatestFails := false,
    createEventFails := false }

/-- Claim C5: from no prior event, successful polls Online, Online, Away
produce snapshot counts 1, 2, 3 and event-state sequences [Online],
[Online], [Online, Away]: one event after the first poll, none after the
second, one more after the third. -/
theorem c5_three_polls :
    (runTicks [okTick pOnline]).players.length = 1 ∧
    (runTicks [okTick pOnline]).events.map (fun e => e.personaState) = [1] ∧
    (runTicks [okTick pOnline, okTick pOnline]).players.length = 2 ∧
    (runTicks [okTick pOnline, okTick pOnline]).events.map (fun e => e.personaState) = [1] ∧
    (runTicks [okTick pOnline, okTick pOnline, okTick pAway]).players.length = 3 ∧
    (runTicks [okTick pOnline, okTick pOnline, okTick pAway]).events.length = 2 ∧
    (runTicks [okTick pOnline, okTick pOnline, okTick pAway]).events.map
      (fun e => e.personaState) = [1, 3] := by decide

/-- The optional sort reorders but never adds or drops rows. -/
theorem sortPlayers_perm (q : SearchPlayersQuery) (l : List Player) :
    (sortPlayers q l).Perm l := by
  unfold sortPlayers
  cases q.sortByCreatedAt with
  | none => exact List.Perm.refl l
  | some o =>
    dsimp only
    split_ifs <;> first | exact List.perm_insertionSort _ l | exact List.Perm.refl l

/-- Claim C7: when page or limit resolve to 0 or below (unset), the search
engine applies no offset or limit and returns the whole filtered row set
(up to the optional ordering) in a single call, with totalCount equal to
the number of returned rows. -/
theorem searchPlayers_unpaginated (db : List Player) (q : SearchPlayersQuery)
    (h : q.page ≤ 0 ∨ q.limit ≤ 0) :
    (searchPlayers db q).players.Perm (db.filter (fun x => playerMatches q x)) ∧
    (searchPlayers db q).players.length = (db.filter (fun x => playerMatches q x)).length ∧
    (searchPlayers db q).totalCount = ((searchPlayers db q).players.length : Int) := by
  have hnot : ¬(0 < q.page ∧ 0 < q.limit) := by
    rcases h with h | h <;> omega
  have hperm : (searchPlayers db q).players.Perm (db.filter (fun x => playerMatches q x)) := by
    simp only [searchPlayers, if_neg hnot]
    exact sortPlayers_perm q _
  refine ⟨hperm, hperm.length_eq, ?_⟩
  rw [hperm.length_eq]
  simp only [searchPlayers, if_neg hnot]

/-- The stored rows of the C7 witness. -/
def c7Db : List Player :=
  [{ id := 1, steamID := 10, profileState := 0, personaName := "a", avatarHash := "",
     lastLogoff := 0, personaState := 1, createdAt := 5 },
   { id := 2, steamID := 11, profileState := 0, personaName := "b", avatarHash := "",
     lastLogoff := 0, personaState := 2, createdAt := 6 }]

/-- The query of the C7 witness: limit=25 with page unset (0). -/
def c7Query : SearchPlayersQuery :=
  { page := 0, limit := 25, steamID := none, startCreatedAt := none,
    endCreatedAt := none, sortByCreatedAt := none }

/-- Claim C7, witness: the unpaginated search at a concrete store and query. -/
theorem searchPlayers_unpaginated_witness :
    (searchPlayers c7Db c7Query).players.Perm
      (c7Db.filter (fun x => playerMatches c7Query x)) ∧
    (searchPlayers c7Db c7Query).players.length =
      (c7Db.filter (fun x => playerMatches c7Query x)).length ∧
    (searchPlayers c7Db c7Query).totalCount =
      ((searchPlayers c7Db c7Query).players.length : Int) :=
  searchPlayers_unpaginated c7Db c7Query (Or.inl (by decide))

/-- Claim C9: a JSON numeric SteamID passes through float64, so the parsed
value is the binary64 rounding of the literal; at 9007199254740993 = 2^53+1
the parsed id differs from the written literal (it rounds to 2^53), while
the same id written as a decimal string parses back exactly. -/
theorem steamID_numeric_precision_loss :
    (∀ n : Int, steamIDUnmarshalNum n = roundFloat64Int n) ∧
    (2 : Int) ^ 53 < 9007199254740993 ∧
    steamIDUnmarshalNum 9007199254740993 = 9007199254740992 ∧
    steamIDUnmarshalNum 9007199254740993 ≠ 9007199254740993 ∧
    steamIDUnmarshalStr (steamIDMarshalBytes 9007199254740993) = some 9007199254740993 :=
  ⟨fun _ => rfl, by decide, by decide, by decide, by decide⟩

/-- An AuditLog whose Raw is non-nil but shorter than 2 bytes. -/
def c10BadAudit : AuditLog := { id := 0, raw := some [123], createdAtBytes := [] }

/-- Claim C10, counterexample: MarshalJSON is not total; on a non-nil Raw
of a single byte the slice expression Raw[:len(Raw)-1][1:] panics
(modelled as none). -/
theorem c10_counterexample : auditLogMarshal (some c10BadAudit) = none := by decide

/-- Claim C10 (amended): AuditLog.MarshalJSON returns "null" for a nil
receiver and succeeds whenever Raw is nil or holds at least two bytes
(emitting the audit fields, plus the interior of Raw when present); it
panics exactly when Raw is non-nil with fewer than two bytes. -/
theorem auditLog_marshal_totality :
    auditLogMarshal none = some (strBytes "null") ∧
    (∀ a : AuditLog, (auditLogMarshal (some a)).isSome =
      match a.raw with
      | none => true
      | some r => decide (2 ≤ r.length)) := by
  constructor
  · rfl
  · intro a
    rcases a with ⟨id, raw, cab⟩
    cases raw with
    | none => rfl
    | some r =>
      by_cases hr : r.length < 2
      · simp [auditLogMarshal, hr]
      · simp [auditLogMarshal, hr]
        omega

/-- The retry loop never calls fn more often than the remaining bound. -/
theorem attemptsUsed_le {ε α : Type} (fn : Nat → GoResult ε α) :
    ∀ fuel i, attemptsUsed fn i fuel ≤ fuel := by
  intro fuel
  induction fuel with
  | zero => intro i; simp [attemptsUsed]
  | succ f ih =>
    intro i
    cases h : fn i with
    | ok a =>
      simp [attemptsUsed, h]
    | err e =>
      have := ih (i + 1)
      simp only [attemptsUsed, h]
      omega

/-- If the first k attempts starting at index i fail and attempt i+k
succeeds with a, the loop yields a and makes exactly k+1 calls. -/
theorem retryCore_first_success {ε α : Type} (fn : Nat → GoResult ε α) :
    ∀ fuel k i last a, k < fuel →
      (∀ j, j < k → ∃ e, fn (i + j) = .err e) → fn (i + k) = .ok a →
      retryCore fn i fuel last = (some a, none) ∧ attemptsUsed fn i fuel = k + 1 := by
  intro fuel
  induction fuel with
  | zero => intro k i last a hk; omega
  | succ f ih =>
    intro k i last a hk hfail hok
    cases k with
    | zero =>
      have h0 : fn i = .ok a := by simpa using hok
      simp [retryCore, attemptsUsed, h0]
    | succ k =>
      obtain ⟨e, he⟩ := hfail 0 (Nat.succ_pos k)
      have he' : fn i = .err e := by simpa using he
      have hfail' : ∀ j, j < k → ∃ e, fn (i + 1 + j) = .err e := by
        intro j hj
        obtain ⟨e', he''⟩ := hfail (j + 1) (by omega)
        exact ⟨e', by rw [show i + 1 + j = i + (j + 1) by omega]; exact he''⟩
      have hok' : fn (i + 1 + k) = .ok a := by
        rw [show i + 1 + k = i + (k + 1) by omega]; exact hok
      have := ih k (i + 1) (some e) a (by omega) hfail' hok'
      simp only [retryCore, attemptsUsed, he']
      exact ⟨this.1, by omega⟩

/-- If every attempt in the window fails, the loop returns no result and
remembers the last attempt's error. -/
theorem retryCore_all_fail {ε α : Type} (fn : Nat → GoResult ε α) :
    ∀ fuel i last, 1 ≤ fuel → (∀ j, j < fuel → ∃ e, fn (i + j) = .err e) →
      ∃ e, fn (i + (fuel - 1)) = .err e ∧ retryCore fn i fuel last = (none, some e) := by
  intro fuel
  induction fuel with
  | zero => intro i last h; omega
  | succ f ih =>
    intro i last _ hfail
    obtain ⟨e0, he0⟩ := hfail 0 (Nat.succ_pos f)
    have he0' : fn i = .err e0 := by simpa using he0
    cases f with
    | zero =>
      refine ⟨e0, by simpa using he0', ?_⟩
      simp [retryCore, he0']
    | succ f' =>
      have hfail' : ∀ j, j < f' + 1 → ∃ e, fn (i + 1 + j) = .err e := by
        intro j hj
        obtain ⟨e', he'⟩ := hfail (j + 1) (by omega)
        exact ⟨e', by rw [show i + 1 + j = i + (j + 1) by omega]; exact he'⟩
      obtain ⟨e, he, hcore⟩ := ih (i + 1) (some e0) (by omega) hfail'
      refine ⟨e, ?_, ?_⟩
      · rw [show i + (f' + 1 + 1 - 1) = i + 1 + (f' + 1 - 1) by omega]
        exact he
      · simp only [retryCore, he0']
        exact hcore

/-- Claim C6: the retried fetch calls the underlying attempt at most N
times; when the first k attempts fail and attempt k+1 succeeds it returns
exactly that attempt's data after exactly k+1 calls; when all N attempts
fail it returns the last attempt's error wrapped with the retry bound.
Moreover a tick whose fetch failed changes nothing, and a successful tick
persists only a snapshot built from the returned data. -/
theorem retry_first_success_or_exhaustion {ε α : Type} (fn : Nat → GoResult ε α)
    (retries : Nat) (hr : 1 ≤ retries) :
    attemptsUsed fn 0 retries ≤ retries ∧
    (∀ k a, k < retries → (∀ j, j < k → ∃ e, fn j = .err e) → fn k = .ok a →
      retry fn retries = .ok a ∧ attemptsUsed fn 0 retries = k + 1) ∧
    ((∀ j, j < retries → ∃ e, fn j = .err e) →
      ∃ e, fn (retries - 1) = .err e ∧ retry fn retries = .err (retries, some e)) ∧
    (∀ (s : TrackerState) (i : TickInput), i.poll = .fetchError → task s i = s) ∧
    (∀ (s : TrackerState) (i : TickInput) (p : PlayerInput),
      s.disableTask = false → i.poll = .playerData p → i.addPlayerFails = false →
      (task s i).players = s.players ++ [mkSnapshot p (Int.ofNat s.clock) s.clock]) := by
  refine ⟨attemptsUsed_le fn retries 0, ?_, ?_, ?_, ?_⟩
  · intro k a hk hfail hok
    have := retryCore_first_success fn retries k 0 none a hk
      (by intro j hj; simpa using hfail j hj) (by simpa using hok)
    constructor
    · simp [retry, this.1]
    · exact this.2
  · intro hfail
    obtain ⟨e, he, hcore⟩ := retryCore_all_fail fn retries 0 none hr
      (by intro j hj; simpa using hfail j hj)
    refine ⟨e, by simpa using he, ?_⟩
    simp [retry, hcore]
  · intro s i hi
    simp [task, hi]
  · intro s i p hd hp ha
    simp only [task, hd, hp, ha]
    simp only [Bool.false_eq_true, if_false]
    split <;> first | rfl | (split <;> first | rfl | (split <;> rfl))

/-- The attempt sequence of the C6 witness: attempts 0 and 1 fail, attempt
2 succeeds. -/
def fnW : Nat → GoResult Nat Nat := fun j => if j < 2 then .err j else .ok 42

/-- Claim C6, witness: with a 3-attempt bound over fnW, retry returns the
third attempt's data after exactly three calls. -/
theorem retry_first_success_or_exhaustion_witness :
    retry fnW 3 = .ok 42 ∧ attemptsUsed fnW 0 3 = 3 := by
  have h := retry_first_success_or_exhaustion fnW 3 (by decide)
  have hk := h.2.1 2 42 (by decide)
    (by
      intro j hj
      exact ⟨j, by simp [fnW, hj]⟩)
    (by simp [fnW])
  exact ⟨hk.1, by omega⟩

/-- Appending one digit multiplies the accumulated value by ten. -/
theorem decValue_append (cs : List Nat) (c : Nat) :
    decValue (cs ++ [c]) = decValue cs * 10 + (c - 48) := by
  simp [decValue, List.foldl_append]

/-- The digit loop on zero emits nothing, whatever the fuel. -/
theorem natDigitsCore_zero (fuel : Nat) : natDigitsCore fuel 0 = [] := by
  cases fuel <;> simp [natDigitsCore]

/-- With enough fuel, the emitted digits are a non-empty all-digit run
whose value is the formatted number. -/
theorem natDigitsCore_spec :
    ∀ fuel n, 0 < n → n ≤ fuel →
      natDigitsCore fuel n ≠ [] ∧ (natDigitsCore fuel n).all isDigitByte = true ∧
      decValue (natDigitsCore fuel n) = n := by
  intro fuel
  induction fuel with
  | zero => intro n h1 h2; omega
  | succ f ih =>
    intro n h1 h2
    have hne : ¬n = 0 := by omega
    simp only [natDigitsCore, if_neg hne]
    by_cases h10 : n < 10
    · have hq : n / 10 = 0 := by omega
      rw [hq, natDigitsCore_zero]
      refine ⟨by simp, ?_, ?_⟩
      · simp [isDigitByte]
        omega
      · simp [decValue]
        omega
    · have hq1 : 0 < n / 10 := by omega
      have hq2 : n / 10 ≤ f := by omega
      obtain ⟨hne', hall, hval⟩ := ih (n / 10) hq1 hq2
      refine ⟨by simp, ?_, ?_⟩
      · simp only [List.all_append, hall, Bool.true_and, List.all_cons, List.all_nil,
          Bool.and_true]
        simp [isDigitByte]
        omega
      · rw [decValue_append, hval]
        omega

/-- Formatting a Nat and reparsing its digit run recovers the value. -/
theorem parseNatDec_natDecBytes (n : Nat) : parseNatDec (natDecBytes n) = some n := by
  by_cases h : n = 0
  · subst h
    decide
  · obtain ⟨hne, hall, hval⟩ := natDigitsCore_spec n n (by omega) (le_refl n)
    simp only [natDecBytes, if_neg h]
    simp only [parseNatDec, List.isEmpty_iff, hne, if_false, hall, if_true, hval]

/-- Every byte of a formatted Nat is a digit, hence neither 45 nor 43. -/
theorem natDecBytes_head_digit (n : Nat) :
    natDecBytes n ≠ [] ∧ (natDecBytes n).all isDigitByte = true := by
  by_cases h : n = 0
  · subst h; decide
  · obtain ⟨hne, hall, _⟩ := natDigitsCore_spec n n (by omega) (le_refl n)
    simp only [natDecBytes, if_neg h]
    exact ⟨hne, hall⟩

/-- Claim C8: serialization round-trips.  Every int64 subject id formatted
in its decimal-string form parses back to the identical value, and every
presence state 0..6 maps to its canonical name and parses back to the same
integer. -/
theorem serialization_round_trips :
    (∀ i : Int, -(2 ^ 63) ≤ i → i < 2 ^ 63 →
      steamIDUnmarshalStr (steamIDMarshalBytes i) = some i) ∧
    (∀ s : Int, 0 ≤ s → s ≤ 6 →
      personaStateFromString (personaStateString s) = some s) := by
  constructor
  · intro i h1 h2
    simp only [steamIDUnmarshalStr, steamIDMarshalBytes, int64DecBytes]
    by_cases hneg : i < 0
    · rw [if_pos hneg]
      simp only [parseInt64Dec, parseNatDec_natDecBytes, Option.bind_eq_bind,
        Option.some_bind]
      have hrange : i.natAbs ≤ 2 ^ 63 := by omega
      rw [if_pos hrange]
      congr 1
      omega
    · rw [if_neg hneg]
      obtain ⟨hne, hall⟩ := natDecBytes_head_digit i.toNat
      rcases hcs : natDecBytes i.toNat with _ | ⟨c, t⟩
      · exact absurd hcs hne
      · have hc : isDigitByte c = true := by
          have := hall
          rw [hcs] at this
          simp only [List.all_cons, Bool.and_eq_true] at this
          exact this.1
        have hc45 : c ≠ 45 := by simp [isDigitByte] at hc; omega
        have hc43 : c ≠ 43 := by simp [isDigitByte] at hc; omega
        have hparse : parseNatDec (c :: t) = some i.toNat := by
          rw [← hcs]; exact parseNatDec_natDecBytes i.toNat
        have hrange : i.toNat ≤ 2 ^ 63 - 1 := by omega
        simp only [parseInt64Dec]
        split
        · rename_i rest heq
          injection heq with hh _
          exact absurd hh hc45
        · rename_i rest heq
          injection heq with hh _
          exact absurd hh hc43
        · rw [hparse]
          simp only [Option.bind_eq_bind, Option.some_bind, if_pos hrange]
          congr 1
          omega
  · intro s h1 h2
    interval_cases s <;> decide

/-- Claim C8, witness: the round trips at a concrete 17-digit subject id
and at presence state 5. -/
theorem serialization_round_trips_witness :
    steamIDUnmarshalStr (steamIDMarshalBytes 76561198012345678) = some 76561198012345678 ∧
    personaStateFromString (personaStateString 5) = some 5 :=
  ⟨serialization_round_trips.1 76561198012345678 (by decide) (by decide),
   serialization_round_trips.2 5 (by decide) (by decide)⟩


/-- On a list with strictly increasing creation times, the descending
order-by query returns the last-inserted row. -/
theorem latestEvent_eq_getLast (l : List PlayerEvent)
    (h : l.Pairwise (fun a b => a.createdAt < b.createdAt)) :
    latestEvent l = l.getLast? := by
  induction l with
  | nil => rfl
  | cons e es ih =>
    rcases es with _ | ⟨x, t⟩
    · rfl
    · have htail := ih h.of_cons
      have hne : (x :: t : List PlayerEvent) ≠ [] := by simp
      have hm : (x :: t : List PlayerEvent).getLast? = some ((x :: t).getLast hne) :=
        List.getLast?_eq_getLast _ hne
      have hmem : (x :: t).getLast hne ∈ x :: t := List.getLast_mem hne
      have hlt : e.createdAt < ((x :: t).getLast hne).createdAt :=
        List.rel_of_pairwise_cons h hmem
      have hunfold : latestEvent (e :: x :: t) =
          match latestEvent (x :: t) with
          | none => some e
          | some m => if m.createdAt ≤ e.createdAt then some e else some m := rfl
      rw [hunfold, htail, hm]
      dsimp only
      rw [if_neg (not_le.mpr hlt), List.getLast?_cons_cons, hm]

/-- The invariant the ticking loop preserves on the events table: creation
times below the clock and strictly increasing along the table, and no two
adjacent events of any subject with equal presence state. -/
def EventsInv (s : TrackerState) : Prop :=
  (∀ e ∈ s.events, e.createdAt < s.clock) ∧
  s.events.Pairwise (fun a b => a.createdAt < b.createdAt) ∧
  ∀ sid, List.Chain' (fun a b => a.personaState ≠ b.personaState) (eventsFor sid s.events)

/-- The empty initial state satisfies the invariant. -/
theorem eventsInv_init : EventsInv initState := by
  refine ⟨?_, ?_, ?_⟩ <;> simp [initState, eventsFor]

/-- A step that leaves the events table unchanged and does not decrease the
clock preserves the invariant. -/
theorem eventsInv_of (s s' : TrackerState) (h : EventsInv s)
    (hev : s'.events = s.events) (hc : s.clock ≤ s'.clock) : EventsInv s' := by
  refine ⟨?_, ?_, ?_⟩
  · intro e he
    rw [hev] at he
    exact lt_of_lt_of_le (h.1 e he) hc
  · rw [hev]; exact h.2.1
  · intro sid; rw [hev]; exact h.2.2 sid

/-- Appending one event whose creation time is at least the clock and whose
state differs from its subject's latest event preserves the invariant,
whatever else the step does to the players table or the flag. -/
theorem eventsInv_snoc (s : TrackerState) (d : Bool) (pl : List Player) (sid : Int)
    (nm : String) (st : Int) (eid : Int) (c c' : Nat) (h : EventsInv s)
    (hc : s.clock ≤ c) (hc' : c < c')
    (hprior : getLatestPlayerEventState s.events sid ≠ st) :
    EventsInv { disableTask := d, players := pl,
                events := s.events ++ [{ id := eid, steamID := sid, personaName := nm,
                                         personaState := st, createdAt := c }],
                clock := c' } := by
  set newE : PlayerEvent := ⟨eid, sid, nm, st, c⟩ with hnewE
  refine ⟨?_, ?_, ?_⟩
  · intro e he
    simp only [List.mem_append, List.mem_singleton] at he
    show e.createdAt < c'
    rcases he with he | he
    · have := h.1 e he
      omega
    · subst he
      simp only [hnewE]
      omega
  · show (s.events ++ [newE]).Pairwise _
    rw [List.pairwise_append]
    refine ⟨h.2.1, by simp, ?_⟩
    intro a ha b hb
    simp only [List.mem_singleton] at hb
    subst hb
    have := h.1 a ha
    show a.createdAt < newE.createdAt
    simp only [hnewE]
    omega
  · intro sid0
    show List.Chain' _ (eventsFor sid0 (s.events ++ [newE]))
    simp only [eventsFor, List.filter_append]
    by_cases hsid : sid = sid0
    · have hkeep : List.filter (fun e => decide (e.steamID = sid0)) [newE] = [newE] := by
        simp [hnewE, hsid]
      rw [hkeep, List.chain'_append]
      refine ⟨h.2.2 sid0, List.chain'_singleton _, ?_⟩
      intro x hx y hy
      simp only [List.head?_cons, Option.mem_def, Option.some.injEq] at hy
      subst hy
      have hpair : (List.filter (fun e => decide (e.steamID = sid0)) s.events).Pairwise
          (fun a b => a.createdAt < b.createdAt) :=
        h.2.1.sublist (List.filter_sublist s.events)
      have hlast := latestEvent_eq_getLast _ hpair
      have hxeq : latestEvent (eventsFor sid0 s.events) = some x := by
        rw [eventsFor, hlast]
        exact hx
      have hstate : getLatestPlayerEventState s.events sid0 = x.personaState := by
        simp only [getLatestPlayerEventState, hxeq]
      intro hcontra
      apply hprior
      rw [hsid, hstate, hcontra]
    · have hdrop : List.filter (fun e => decide (e.steamID = sid0)) [newE] = [] := by
        simp [hnewE, hsid]
      rw [hdrop, List.append_nil]
      exact h.2.2 sid0

/-- One tick preserves the events invariant: every branch either leaves the
events table unchanged with a non-decreasing clock, or appends one event
through the differing-state guard. -/
theorem eventsInv_task (s : TrackerState) (i : TickInput) (h : EventsInv s) :
    EventsInv (task s i) := by
  rcases hp : i.poll with _ | _ | p
  · simp only [task, hp]
    split_ifs <;> exact h
  · simp only [task, hp]
    split_ifs <;> exact h
  · simp only [task, hp]
    split_ifs
    case pos => exact h
    all_goals first
      | exact h
      | exact eventsInv_of s _ h rfl (Nat.le_succ _)
      | (rename_i hprior _
         exact eventsInv_snoc s _ _ _ _ _ _ _ _ h (Nat.le_succ _) (Nat.lt_succ_self _) hprior)

/-- Claim C3: after any sequence of sequential poll ticks from the empty
state, the persisted events carry strictly increasing creation times (so
the table order is creation-time order), and for every subject id the
events of that subject never contain two adjacent entries with equal
presence state. -/
theorem player_events_no_adjacent_equal_state (inputs : List TickInput) (sid : Int) :
    (runTicks inputs).events.Pairwise (fun a b => a.createdAt < b.createdAt) ∧
    List.Chain' (fun a b => a.personaState ≠ b.personaState)
      (eventsFor sid (runTicks inputs).events) := by
  have key : ∀ (l : List TickInput) (s : TrackerState), EventsInv s →
      EventsInv (l.foldl task s) := by
    intro l
    induction l with
    | nil => intro s hs; exact hs
    | cons a t ih => intro s hs; exact ih (task s a) (eventsInv_task s a hs)
  have h := key inputs initState eventsInv_init
  exact ⟨h.2.1, h.2.2 sid⟩
